import Mathlib

/-!
# Verification of the resumable step engine (conversation plugin)

This file embeds the resumable step engine of the repository in Lean 4 and
settles the frozen claims about it.

The embedding follows `src/convenience/conversation.ts` (the replay-stack
design: `trackpc`, `ShallowConversation.middleware`, `Conversation.middleware`
and the `enter` closure), `unnamed/part_001` (the id-indexed variant whose
`register` assigns build-time program counters), and `unnamed/part_002`
(the tree-navigation variant with `diveOut` and step dispatch).

Machine state is passed explicitly.  JavaScript exceptions are modelled by an
explicit `Out.err` result that also carries the state reached so far, since in
the source mutations performed before a `throw` persist.  User handlers are
modelled by a label that is appended to an event log when the handler is
invoked (together with a flag telling whether a replay cursor was active at
that moment) and by a boolean saying whether the handler calls `next()`.
-/

namespace Grammy

/-- One registered middleware as seen by a `ShallowConversation` composer.
A `user` entry is an ordinary user handler (it logs its label when invoked
and propagates to the next sibling iff `callsNext` is true, so a `wait`
marker is `user label false`).  A `sub` entry is a nested
`ShallowConversation` produced by `register` (`use`, `wait`, `filter`, ...):
its middleware pushes a stack frame and runs its own tracked chain. -/
inductive Mw where
  | user (label : Nat) (callsNext : Bool) : Mw
  | sub (entries : List Mw) : Mw

/-- StackFrame of `conversation.ts`: `{ pc: number }`.  The pc starts at `-1`
when a frame is pushed and is incremented by `trackpc`, hence `Int`. -/
structure StackFrame where
  pc : Int
deriving DecidableEq, Repr

/-- The transient replay cursor `ctx[replay] = { frame, pc }`. -/
structure ReplayPos where
  frame : Int
  pc : Int
deriving DecidableEq, Repr

/-- The persisted state slot `session.conversation = { id, stack }`. -/
structure ConvData where
  id : String
  stack : List StackFrame
deriving DecidableEq, Repr

/-- The per-invocation context: the session slot, the replay cursor
(`ctx[replay]`), the activity flag (`ctx[active]`), and the log of user
handler invocations `(label, wasReplaying)`. -/
structure Ctx where
  conversation : Option ConvData
  replay : Option ReplayPos
  active : Bool
  log : List (Nat × Bool)
deriving DecidableEq, Repr

/-- Errors thrown by the engine: `getStackData`'s "No data available!",
a JavaScript `TypeError` from reading `.pc` of an `undefined` frame (or
incrementing the pc of an absent top frame), and the rejection of `enter`
while persisted state exists. -/
inductive Err where
  | noData : Err
  | typeError : Err
  | alreadyRunning (running target : String) : Err
deriving DecidableEq, Repr

/-- Result of running a middleware: either `ok b` where `b` says whether the
middleware signalled downstream continuation (called its `next`), or a thrown
error.  The final state is returned alongside in a pair. -/
inductive Out (α : Type) where
  | ok (a : α) : Out α
  | err (e : Err) : Out α
deriving DecidableEq, Repr

/-- JavaScript array indexing `stack[i]`: `undefined` outside bounds. -/
def getFrame (stack : List StackFrame) (i : Int) : Option StackFrame :=
  if 0 ≤ i then stack.get? i.toNat else none

/-- The mutation `topFrame.pc++` performed by `trackpc` in live mode
(increment the pc of the last stack frame). -/
def bumpTopPc : List StackFrame → List StackFrame
  | [] => []
  | [f] => [⟨f.pc + 1⟩]
  | f :: g :: rest => f :: bumpTopPc (g :: rest)

/-- The mutation `stack.pop()` performed by the continuation installed by
`ShallowConversation.middleware`. -/
def popTop (s : Ctx) : Ctx :=
  match s.conversation with
  | none => s
  | some conv => { s with conversation := some ⟨conv.id, conv.stack.dropLast⟩ }

mutual

/-- The tracker wrapper `trackpc` (`conversation.ts` lines 53-93): reads the
stack (`getStackData`), then either performs the replay decision (skip /
finish replay / descend) or, in live mode, increments the top frame's pc and
runs the wrapped handler. -/
def runTracked (m : Mw) (s : Ctx) : Ctx × Out Bool :=
  match s.conversation with
  | none => (s, Out.err Err.noData)
  | some conv =>
    let stack := conv.stack
    let topFramePos : Int := (stack.length : Int) - 1
    match s.replay with
    | some rp =>
      match getFrame stack rp.frame with
      | none => (s, Out.err Err.typeError)
      | some replayFrame =>
        if rp.pc < replayFrame.pc then
          ({ s with replay := some ⟨rp.frame, rp.pc + 1⟩ }, Out.ok true)
        else if rp.frame = topFramePos then
          ({ s with replay := none, active := true }, Out.ok true)
        else
          runHandler m s
    | none =>
      if stack.isEmpty then (s, Out.err Err.typeError)
      else runHandler m { s with conversation := some ⟨conv.id, bumpTopPc stack⟩ }

/-- `new Composer(mw).middleware()`: a user middleware runs the user code
(log the label, propagate iff it calls `next`); a nested
`ShallowConversation` runs its `middleware()`. -/
def runHandler (m : Mw) (s : Ctx) : Ctx × Out Bool :=
  match m with
  | .user label callsNext =>
    ({ s with log := s.log ++ [(label, s.replay.isSome)] }, Out.ok callsNext)
  | .sub entries => runScope entries s

/-- `ShallowConversation.middleware` (`conversation.ts` lines 161-187): in
replay mode advance the cursor one frame (virtual push), in live mode push a
fresh frame with pc `-1`; then run the composer chain with a continuation
that pops the frame and signals the outer continuation. -/
def runScope (entries : List Mw) (s : Ctx) : Ctx × Out Bool :=
  match s.conversation with
  | none => (s, Out.err Err.noData)
  | some conv =>
    let s1 : Ctx :=
      match s.replay with
      | some rp => { s with replay := some ⟨rp.frame + 1, rp.pc⟩ }
      | none => { s with conversation := some ⟨conv.id, conv.stack ++ [⟨-1⟩]⟩ }
    match runScopeChain entries s1 with
    | (s2, Out.ok true) => (popTop s2, Out.ok true)
    | other => other

/-- Modelled from the spec: the generic handler-chain primitive
(`composer.ts`, an external collaborator not under `src/`) composes the
registered middlewares sequentially; each middleware receives the rest of the
chain as its `next`, an exhausted chain invokes the outer continuation, and a
middleware that does not call `next` stops the chain. -/
def runScopeChain (entries : List Mw) (s : Ctx) : Ctx × Out Bool :=
  match entries with
  | [] => (s, Out.ok true)
  | e :: rest =>
    match runTracked e s with
    | (s', Out.ok true) => runScopeChain rest s'
    | other => other

end

/-- The event-handling path of `Conversation.middleware` (`conversation.ts`
lines 195-257): pass through when the persisted state does not name this
conversation; otherwise, when no conversation is driving the event yet
(`ctx[active]` unset, the root case), install a fresh replay cursor
`{ frame: -1, pc: 0 }`, run the root scope, and on falling through the whole
tree perform `leave()` (delete `ctx[active]` and the persisted state). -/
def convMiddleware (id : String) (entries : List Mw) (s : Ctx) : Ctx × Out Bool :=
  if s.conversation.map ConvData.id = some id then
    let root : Bool := !s.active
    let s1 : Ctx := if root then { s with replay := some ⟨-1, 0⟩ } else s
    match runScope entries s1 with
    | (s2, Out.ok true) =>
      (if root then { s2 with active := false, conversation := none } else s2,
        Out.ok true)
    | other => other
  else (s, Out.ok true)

/-- The `enter` closure installed by `Conversation.middleware`
(`conversation.ts` lines 212-232), with no previously installed `enter`
handler to delegate to (`oldEnter` is absent): a non-matching identifier
resolves as a no-op; if persisted state already exists the call throws (a
rejected promise) before any mutation; otherwise it creates fresh persisted
state `{ id, stack: [] }`, sets `ctx[active]`, and runs the root scope live
with a continuation that performs `leave()`. -/
def enterOp (id : String) (entries : List Mw) (identifier : String) (s : Ctx) :
    Ctx × Out Unit :=
  if identifier = id then
    match s.conversation with
    | some c => (s, Out.err (Err.alreadyRunning c.id id))
    | none =>
      let s1 : Ctx := { s with conversation := some ⟨id, []⟩, active := true }
      match runScope entries s1 with
      | (s2, Out.ok true) =>
        ({ s2 with active := false, conversation := none }, Out.ok ())
      | (s2, Out.ok false) => (s2, Out.ok ())
      | (s2, Out.err e) => (s2, Out.err e)
  else (s, Out.ok ())

/-- A fresh per-event context holding the given persisted state: the replay
cursor and activity flag are invocation-scoped and start absent, the log of
handler invocations starts empty. -/
def freshCtx (conversation : Option ConvData) : Ctx :=
  ⟨conversation, none, false, []⟩

/-! ## Stall structure of a tree

Live execution of a chain is deterministic in the tree shape: it stops at
the first entry whose user handler does not call `next` (the suspension),
descending into nested scopes on the way.  The following functions compute,
from the tree alone, whether a chain suspends and how many nested frames
below the current one are open at the suspension point; the nesting depth of
the suspended position of a whole conversation is one (the root scope's
frame) plus `chainStallFrames` of its root chain. -/

mutual

/-- Does live execution of this entry stop propagation? -/
def mwStalls : Mw → Bool
  | .user _ callsNext => !callsNext
  | .sub entries => chainStalls entries

/-- Does live execution of this chain stop before its end? -/
def chainStalls : List Mw → Bool
  | [] => false
  | e :: rest => mwStalls e || chainStalls rest

end

mutual

/-- Number of frames left open below the current one when live execution of
this (stalling) entry suspends. -/
def mwStallFrames : Mw → Nat
  | .user _ _ => 0
  | .sub entries => 1 + chainStallFrames entries

/-- Number of frames left open below the current one when live execution of
this (stalling) chain suspends. -/
def chainStallFrames : List Mw → Nat
  | [] => 0
  | e :: rest => if mwStalls e then mwStallFrames e else chainStallFrames rest

end

theorem bumpTopPc_length (st : List StackFrame) :
    (bumpTopPc st).length = st.length := by
  induction st with
  | nil => rfl
  | cons f rest ih =>
    cases rest with
    | nil => rfl
    | cons g rest2 => simpa [bumpTopPc] using ih

/-- Live execution of one tracked entry: from a live context (no replay
cursor) over a non-empty stack it neither throws nor touches the cursor or
the activity flag, signals continuation iff the entry does not stall, and
leaves a stack of the stated length. -/
def LiveTracked (m : Mw) : Prop :=
  ∀ (conv : ConvData) (av : Bool) (lg : List (Nat × Bool)), conv.stack ≠ [] →
    ∃ st lg2,
      runTracked m ⟨some conv, none, av, lg⟩ =
        (⟨some ⟨conv.id, st⟩, none, av, lg2⟩, Out.ok (!mwStalls m)) ∧
      st.length = conv.stack.length + (if mwStalls m then mwStallFrames m else 0)

/-- Live execution of a tracked chain, as `LiveTracked`. -/
def LiveChain (es : List Mw) : Prop :=
  ∀ (conv : ConvData) (av : Bool) (lg : List (Nat × Bool)), conv.stack ≠ [] →
    ∃ st lg2,
      runScopeChain es ⟨some conv, none, av, lg⟩ =
        (⟨some ⟨conv.id, st⟩, none, av, lg2⟩, Out.ok (!chainStalls es)) ∧
      st.length = conv.stack.length +
        (if chainStalls es then chainStallFrames es else 0)

/-- Live execution of a scope (`ShallowConversation.middleware`): pushes a
frame, runs the chain, pops on completion. -/
def LiveScope (es : List Mw) : Prop :=
  ∀ (conv : ConvData) (av : Bool) (lg : List (Nat × Bool)),
    ∃ st lg2,
      runScope es ⟨some conv, none, av, lg⟩ =
        (⟨some ⟨conv.id, st⟩, none, av, lg2⟩, Out.ok (!chainStalls es)) ∧
      st.length = conv.stack.length +
        (if chainStalls es then 1 + chainStallFrames es else 0)

theorem live_aux (n : Nat) :
    (∀ m : Mw, sizeOf m ≤ n → LiveTracked m) ∧
    (∀ es : List Mw, sizeOf es ≤ n → LiveChain es ∧ LiveScope es) := by
  induction n using Nat.strong_induction_on with
  | _ n ih =>
  have hchain : ∀ es : List Mw, sizeOf es ≤ n → LiveChain es := by
    intro es hes
    match es with
    | [] =>
      intro conv av lg hne
      refine ⟨conv.stack, lg, ?_, by simp [chainStalls]⟩
      simp [runScopeChain, chainStalls]
    | e :: rest =>
      intro conv av lg hne
      have hse : sizeOf e < n := by
        have : sizeOf e < sizeOf (e :: rest) := by
          simp only [List.cons.sizeOf_spec]; omega
        omega
      have hsr : sizeOf rest < n := by
        have : sizeOf rest < sizeOf (e :: rest) := by
          simp only [List.cons.sizeOf_spec]; omega
        omega
      have hte : LiveTracked e := (ih (sizeOf e) hse).1 e le_rfl
      have htr : LiveChain rest := ((ih (sizeOf rest) hsr).2 rest le_rfl).1
      obtain ⟨st1, lg1, heq1, hlen1⟩ := hte conv av lg hne
      cases hstall : mwStalls e with
      | true =>
        refine ⟨st1, lg1, ?_, ?_⟩
        · simp [runScopeChain, heq1, hstall, chainStalls]
        · simp only [hstall, if_true] at hlen1
          simp [chainStalls, chainStallFrames, hstall, hlen1]
      | false =>
        simp [hstall] at hlen1
        have hne1 : st1 ≠ [] := by
          have h0 : 0 < conv.stack.length := List.length_pos.2 hne
          have h1 : 0 < st1.length := by omega
          exact List.length_pos.1 h1
        obtain ⟨st2, lg2, heq2, hlen2⟩ := htr ⟨conv.id, st1⟩ av lg1 hne1
        have hlen2b : st2.length =
            st1.length + (if chainStalls rest then chainStallFrames rest else 0) :=
          hlen2
        refine ⟨st2, lg2, ?_, ?_⟩
        · simp [runScopeChain, heq1, hstall, chainStalls, heq2]
        · simp only [chainStalls, chainStallFrames, hstall, Bool.false_or]
          cases hr : chainStalls rest <;> simp [hr] at hlen2b ⊢ <;> omega
  have hscope : ∀ es : List Mw, sizeOf es ≤ n → LiveScope es := by
    intro es hes conv av lg
    obtain ⟨st2, lg2, heq2, hlen2⟩ :=
      hchain es hes ⟨conv.id, conv.stack ++ [⟨-1⟩]⟩ av lg (by simp)
    cases hstall : chainStalls es with
    | true =>
      refine ⟨st2, lg2, ?_, ?_⟩
      · simp [runScope, heq2, hstall]
      · simp only [hstall, if_true] at hlen2 ⊢
        simp at hlen2
        omega
    | false =>
      refine ⟨st2.dropLast, lg2, ?_, ?_⟩
      · simp [runScope, heq2, hstall, popTop]
      · simp only [hstall, if_false] at hlen2 ⊢
        simp at hlen2
        simp [List.length_dropLast]
        omega
  have htracked : ∀ m : Mw, sizeOf m ≤ n → LiveTracked m := by
    intro m hm
    match m with
    | .user label callsNext =>
      intro conv av lg hne
      refine ⟨bumpTopPc conv.stack, lg ++ [(label, false)], ?_, ?_⟩
      · simp [runTracked, runHandler, hne, mwStalls]
      · cases callsNext <;>
          simp [mwStalls, bumpTopPc_length, mwStallFrames]
    | .sub entries =>
      intro conv av lg hne
      have hsz : sizeOf entries < n := by
        have : sizeOf entries < sizeOf (Mw.sub entries) := by
          simp only [Mw.sub.sizeOf_spec]; omega
        omega
      have hs : LiveScope entries := ((ih (sizeOf entries) hsz).2 entries le_rfl).2
      obtain ⟨st2, lg2, heq2, hlen2⟩ := hs ⟨conv.id, bumpTopPc conv.stack⟩ av lg
      refine ⟨st2, lg2, ?_, ?_⟩
      · simp [runTracked, runHandler, hne, heq2, mwStalls]
      · simp at hlen2
        simp [mwStalls, mwStallFrames, bumpTopPc_length] at hlen2 ⊢
        cases hstall : chainStalls entries with
        | true => simp [hstall] at hlen2 ⊢; omega
        | false => simp [hstall] at hlen2 ⊢; omega
  exact ⟨htracked, fun es hes => ⟨hchain es hes, hscope es hes⟩⟩

/-! ## Concrete trees used by the scenarios

Every builder registration (`use`, `wait`, ...) wraps the registered
middleware in a nested `ShallowConversation` (`register` creates
`new ShallowConversation(...middleware)` and installs
`trackpc(conversation)`), so a built entry is always a `Mw.sub`. -/

/-- Scenario A of the spec: `conv.use(h1); conv.wait(); conv.use(h2)` — two
sequential entries with a suspension marker before the second.  Handler 1 has
label 1, the `wait` no-op has label 99 (it never calls `next`), handler 2 has
label 2. -/
def scenarioATree : List Mw :=
  [.sub [.user 1 true], .sub [.user 99 false], .sub [.user 2 true]]

/-- The tree `conv.use(h1); conv.wait().use(h2)` where handler 2 (label 2)
does not call `next`: the entry after the suspension marker lives inside the
`wait` entry's scope, which yields a depth-3 suspension after the second
invocation. -/
def nestedReplayTree : List Mw :=
  [.sub [.user 1 true], .sub [.user 99 false, .sub [.user 2 false]]]

/-- A one-entry tree whose only handler (label 5) passes through. -/
def oneEntryTree : List Mw := [.sub [.user 5 true]]

/-- A two-entry tree: handler 20 passes through, handler 21 suspends. -/
def twoEntryTree : List Mw := [.sub [.user 20 true], .sub [.user 21 false]]

/-- `twoEntryTree` with its first entry removed between two invocations. -/
def prunedTree : List Mw := [.sub [.user 21 false]]

/-! ## C1 -/

/-- C1, counterexample.  The claim says that when the replay cursor's pc
equals the target frame's pc and its frame index is the last index of the
stack, the tracker invokes that entry's inner handler against the current
event.  At the concrete input below all of these hypotheses hold (target pc
0, cursor pc 0, frame 0 is the last index), yet the inner handler of the
entry — a user handler that would append `(7, true)` to the log — is not
invoked: the log stays empty and the wrapper merely signals the downstream
continuation (the code comment reads "skip one more handler and resume
execution normally"). -/
theorem trackpc_resume_skips_inner_handler :
    runTracked (Mw.user 7 false) ⟨some ⟨"a", [⟨0⟩]⟩, some ⟨0, 0⟩, false, []⟩ =
      (⟨some ⟨"a", [⟨0⟩]⟩, none, true, []⟩, Out.ok true) ∧
    (runTracked (Mw.user 7 false)
      ⟨some ⟨"a", [⟨0⟩]⟩, some ⟨0, 0⟩, false, []⟩).1.log = [] := by
  constructor <;> simp [runTracked, runHandler, getFrame]

/-- C1, amended.  When the tracker wrapper runs with an active replay cursor
whose pc equals the target frame's pc and whose frame index is the last index
of the stack, it clears the replay cursor, switches to live mode
(`ctx[active] = true`), and passes control to the downstream pipeline against
the current event, skipping the matched entry's own inner handler (the log is
unchanged). -/
theorem trackpc_resume_switches_live (m : Mw) (s : Ctx) (conv : ConvData)
    (rp : ReplayPos) (f : StackFrame)
    (hc : s.conversation = some conv) (hr : s.replay = some rp)
    (hf : getFrame conv.stack rp.frame = some f) (heq : rp.pc = f.pc)
    (htop : rp.frame = (conv.stack.length : Int) - 1) :
    runTracked m s = ({ s with replay := none, active := true }, Out.ok true) := by
  have hf2 : getFrame conv.stack ((conv.stack.length : Int) - 1) = some f := htop ▸ hf
  simp [runTracked, hc, hr, hf2, heq, htop, lt_irrefl]

/-- Witness for the amended C1 theorem at a concrete input. -/
theorem trackpc_resume_switches_live_witness :
    runTracked (Mw.user 3 true) ⟨some ⟨"b", [⟨2⟩]⟩, some ⟨0, 2⟩, false, []⟩ =
      (⟨some ⟨"b", [⟨2⟩]⟩, none, true, []⟩, Out.ok true) :=
  trackpc_resume_switches_live (Mw.user 3 true)
    ⟨some ⟨"b", [⟨2⟩]⟩, some ⟨0, 2⟩, false, []⟩ ⟨"b", [⟨2⟩]⟩ ⟨0, 2⟩ ⟨2⟩
    rfl rfl rfl rfl (by decide)

/-! ## C2 -/

/-- C2, amended (the skip rule itself holds).  An entry reached during a
replay pass while the cursor's pc counter is strictly below the target
frame's pc is skipped: its inner handler is not invoked (the state other than
the cursor, in particular the log, is unchanged), the cursor's pc counter is
incremented, and the pipeline continues to the next sibling. -/
theorem trackpc_skip_below_target (m : Mw) (s : Ctx) (conv : ConvData)
    (rp : ReplayPos) (f : StackFrame)
    (hc : s.conversation = some conv) (hr : s.replay = some rp)
    (hf : getFrame conv.stack rp.frame = some f) (hlt : rp.pc < f.pc) :
    runTracked m s =
      ({ s with replay := some ⟨rp.frame, rp.pc + 1⟩ }, Out.ok true) := by
  simp [runTracked, hc, hr, hf, hlt]

/-- Witness for the C2 skip theorem at a concrete input. -/
theorem trackpc_skip_below_target_witness :
    runTracked (Mw.user 4 true) ⟨some ⟨"b", [⟨3⟩]⟩, some ⟨0, 1⟩, false, []⟩ =
      (⟨some ⟨"b", [⟨3⟩]⟩, some ⟨0, 2⟩, false, []⟩, Out.ok true) :=
  trackpc_skip_below_target (Mw.user 4 true)
    ⟨some ⟨"b", [⟨3⟩]⟩, some ⟨0, 1⟩, false, []⟩ ⟨"b", [⟨3⟩]⟩ ⟨0, 1⟩ ⟨3⟩
    rfl rfl rfl (by decide)

/-- C2, counterexample to the universal part.  The cursor's pc counter is
not reset when replay descends into a nested scope, so a replay pass can
invoke the handler of an entry whose pc differs from the matched target at
its depth.  Concretely, for `nestedReplayTree`: invocation 1 (`enter`)
suspends with stack `[{pc 1}, {pc 0}]`, invocation 2 replays and suspends
with stack `[{pc 1}, {pc 1}, {pc 0}]` — both computed below — and invocation
3 then replays with target pc 1 at frame 1, yet invokes the handler of entry
99, the entry at sibling position 0 of that scope, while the cursor is still
active (the log records `(99, true)`, and the cursor survives the
invocation). -/
theorem replay_invokes_mismatched_sibling :
    (enterOp "a" nestedReplayTree "a" (freshCtx none)).1.conversation =
      some ⟨"a", [⟨1⟩, ⟨0⟩]⟩ ∧
    (convMiddleware "a" nestedReplayTree
      (freshCtx (some ⟨"a", [⟨1⟩, ⟨0⟩]⟩))).1.conversation =
      some ⟨"a", [⟨1⟩, ⟨1⟩, ⟨0⟩]⟩ ∧
    (convMiddleware "a" nestedReplayTree
      (freshCtx (some ⟨"a", [⟨1⟩, ⟨1⟩, ⟨0⟩]⟩))).1.log = [(99, true)] ∧
    (convMiddleware "a" nestedReplayTree
      (freshCtx (some ⟨"a", [⟨1⟩, ⟨1⟩, ⟨0⟩]⟩))).1.replay = some ⟨1, 1⟩ := by
  refine ⟨?_, ?_, ?_, ?_⟩ <;>
    simp [enterOp, convMiddleware, runScope, runScopeChain, runTracked,
      runHandler, freshCtx, getFrame, popTop, bumpTopPc, nestedReplayTree]

/-! ## C3 -/

/-- C3, counterexample.  Running the replay algorithm once on
`oneEntryTree` with persisted stack `[{pc 7}]` keeps the replay cursor
active for the whole run (it is still present, at `{frame 0, pc 1}`, when
the invocation ends), yet mutates the stack: the frame is popped and the
persisted state deleted, so the result differs from not running at all. -/
theorem pure_replay_clears_state :
    convMiddleware "a" oneEntryTree (freshCtx (some ⟨"a", [⟨7⟩]⟩)) =
      (⟨none, some ⟨0, 1⟩, false, []⟩, Out.ok true) ∧
    (convMiddleware "a" oneEntryTree
      (freshCtx (some ⟨"a", [⟨7⟩]⟩))).1.conversation ≠
      (freshCtx (some ⟨"a", [⟨7⟩]⟩)).conversation := by
  constructor <;>
    simp [convMiddleware, runScope, runScopeChain, runTracked, runHandler,
      freshCtx, getFrame, popTop, bumpTopPc, oneEntryTree]

/-- C3, amended.  Pure replay is not free of side effects on the stack: a
replay pass whose cursor never matches pops every completed frame and, on
falling off the end of the tree, deletes the persisted state.  What does
hold is that a second run on the resulting state changes nothing: once the
persisted state is gone the engine passes through unchanged, so running the
algorithm twice yields the same stack contents as running it once (shown
both in general for a cleared state and concretely for the run of
`pure_replay_clears_state`). -/
theorem replay_pass_through_after_clear :
    (∀ (id : String) (es : List Mw) (s : Ctx), s.conversation = none →
      convMiddleware id es s = (s, Out.ok true)) ∧
    convMiddleware "a" oneEntryTree ⟨none, some ⟨0, 1⟩, false, []⟩ =
      (⟨none, some ⟨0, 1⟩, false, []⟩, Out.ok true) := by
  constructor
  · intro id es s hc
    simp [convMiddleware, hc]
  · simp [convMiddleware]

/-- Witness for the amended C3 theorem at a concrete input. -/
theorem replay_pass_through_after_clear_witness :
    convMiddleware "z" oneEntryTree (freshCtx none) =
      (freshCtx none, Out.ok true) :=
  replay_pass_through_after_clear.1 "z" oneEntryTree (freshCtx none) rfl

/-! ## C4 -/

theorem liveScope_all (es : List Mw) : LiveScope es :=
  ((live_aux (sizeOf es)).2 es le_rfl).2

mutual

/-- Number of nested scopes enclosing the user handler with the given label
inside this entry (`none` when the label does not occur here).  A handler
sitting directly in a scope's chain contributes 0; each surrounding `sub`
adds one.  The nesting depth of that handler's position in a whole
conversation is one (the root scope) plus this count. -/
def mwLabelDepth : Mw → Nat → Option Nat
  | .user l _, t => if l = t then some 0 else none
  | .sub entries, t => (chainLabelDepth entries t).map (· + 1)

/-- Number of nested scopes enclosing the user handler with the given label
inside this chain, as `mwLabelDepth`. -/
def chainLabelDepth : List Mw → Nat → Option Nat
  | [], _ => none
  | e :: rest, t =>
    match mwLabelDepth e t with
    | some d => some d
    | none => chainLabelDepth rest t

end

/-- C4, counterexample.  The claim ranges over any completed invocation of
an active conversation; a replay invocation violates it.  On
`nestedReplayTree`, invocation 1 (`enter`) persists `[{pc 1}, {pc 0}]` and
invocation 2 persists `[{pc 1}, {pc 1}, {pc 0}]` (both recomputed below, so
the stack is one the engine itself produced).  Invocation 3 then completes
without error with the conversation still active, the stack unchanged at
length 3, and execution halted at handler 99 — the only handler the
invocation ran (log `[(99, true)]`), which did not propagate
(`Out.ok false`).  Handler 99 sits under a single nested scope
(`chainLabelDepth = some 1`), so the nesting depth of the position where
the invocation is suspended is 1 + 1 = 2, while the stack length is 3: the
depth invariant fails after this completed invocation. -/
theorem replay_breaks_depth_invariant :
    (enterOp "a" nestedReplayTree "a" (freshCtx none)).1.conversation =
      some ⟨"a", [⟨1⟩, ⟨0⟩]⟩ ∧
    (convMiddleware "a" nestedReplayTree
      (freshCtx (some ⟨"a", [⟨1⟩, ⟨0⟩]⟩))).1.conversation =
      some ⟨"a", [⟨1⟩, ⟨1⟩, ⟨0⟩]⟩ ∧
    convMiddleware "a" nestedReplayTree
      (freshCtx (some ⟨"a", [⟨1⟩, ⟨1⟩, ⟨0⟩]⟩)) =
      (⟨some ⟨"a", [⟨1⟩, ⟨1⟩, ⟨0⟩]⟩, some ⟨1, 1⟩, false, [(99, true)]⟩,
        Out.ok false) ∧
    chainLabelDepth nestedReplayTree 99 = some 1 ∧
    (3 : Nat) ≠ 1 + 1 := by
  refine ⟨?_, ?_, ?_, ?_, by omega⟩ <;>
    simp [enterOp, convMiddleware, runScope, runScopeChain, runTracked,
      runHandler, freshCtx, getFrame, popTop, bumpTopPc, nestedReplayTree,
      mwLabelDepth, chainLabelDepth]

/-- C4, amended.  For an invocation that starts the conversation
(`enter`) — the case to which the depth invariant must be restricted, since
a later replay invocation can violate it (a replay pass that stalls
mid-replay completes with the conversation active but the stack longer than
the nesting depth of the position where execution halted) — if the tree
suspends, the invocation completes with persisted state
whose stack length is exactly the nesting depth of the suspended position —
one frame for the root scope plus one per nested scope open at the
suspension point (`1 + chainStallFrames`) — and in particular the stack is
non-empty while the conversation is active; if the tree runs to completion
instead, the persisted state is deleted (the stack exists exactly as long
as the conversation is active and becomes empty precisely at completion, at
which point `leave()` removes it). -/
theorem enter_stack_matches_nesting_depth (id : String) (es : List Mw)
    (s : Ctx) (hc : s.conversation = none) (hr : s.replay = none) :
    (chainStalls es = true →
      ∃ c, ((enterOp id es id s).1).conversation = some c ∧ c.id = id ∧
        c.stack.length = 1 + chainStallFrames es ∧ c.stack ≠ []) ∧
    (chainStalls es = false →
      ((enterOp id es id s).1).conversation = none) := by
  obtain ⟨cv, rp, av, lg⟩ := s
  cases hc
  cases hr
  obtain ⟨st2, lg2, heq2, hlen2⟩ := liveScope_all es ⟨id, []⟩ true lg
  have hlen2b : st2.length =
      0 + (if chainStalls es then 1 + chainStallFrames es else 0) := hlen2
  constructor
  · intro hstall
    refine ⟨⟨id, st2⟩, ?_, rfl, ?_, ?_⟩
    · simp [enterOp, heq2, hstall]
    · simp [hstall] at hlen2b
      show st2.length = 1 + chainStallFrames es
      omega
    · simp [hstall] at hlen2b
      show st2 ≠ []
      have h1 : 0 < st2.length := by omega
      exact List.length_pos.1 h1
  · intro hstall
    simp [enterOp, heq2, hstall]

/-- Witness for the C4 theorem: on `nestedReplayTree` (which suspends), an
`enter` invocation leaves a stack of length `1 + chainStallFrames`, and on
`oneEntryTree` (which completes) it leaves no persisted state. -/
theorem enter_stack_matches_nesting_depth_witness :
    (∃ c, ((enterOp "w" nestedReplayTree "w" (freshCtx none)).1).conversation =
        some c ∧ c.id = "w" ∧
        c.stack.length = 1 + chainStallFrames nestedReplayTree ∧
        c.stack ≠ []) ∧
    ((enterOp "w" oneEntryTree "w" (freshCtx none)).1).conversation = none :=
  ⟨(enter_stack_matches_nesting_depth "w" nestedReplayTree (freshCtx none)
      rfl rfl).1 (by simp [chainStalls, mwStalls, nestedReplayTree]),
    (enter_stack_matches_nesting_depth "w" oneEntryTree (freshCtx none)
      rfl rfl).2 (by simp [chainStalls, mwStalls, oneEntryTree])⟩

/-! ## C5 -/

/-- C5, counterexample.  After invocation 1 (`enter`) on the scenario A tree
the persisted stack is `[{pc 1}, {pc 0}]` — the root frame records pc 1 (the
`wait` entry) and the `wait` entry's own scope holds a second frame — not
`[{pc 0}]` as the claim states. -/
theorem scenarioA_stack_after_enter :
    (enterOp "a" scenarioATree "a" (freshCtx none)).1.conversation =
      some ⟨"a", [⟨1⟩, ⟨0⟩]⟩ ∧
    (enterOp "a" scenarioATree "a" (freshCtx none)).1.conversation ≠
      some ⟨"a", [⟨0⟩]⟩ := by
  constructor <;>
    simp [enterOp, runScope, runScopeChain, runTracked, runHandler, freshCtx,
      getFrame, popTop, bumpTopPc, scenarioATree]

/-- C5, amended.  On the scenario A tree, invocation 1 (`enter`) runs
handler 1 and persists the stack `[{pc 1}, {pc 0}]` (not `[{pc 0}]`);
invocation 2 with the same identifier replays that stack — the cursor
matches the `wait` entry at the root, descends into its scope, reaches the
last frame there and switches to live — and then runs handler 2's group live
against the new event (the log records exactly `(2, false)`: handler 2, not
replaying); that group runs to completion, so the persisted state is
cleared. -/
theorem scenarioA_full_run :
    (enterOp "a" scenarioATree "a" (freshCtx none)).1.log =
      [(1, false), (99, false)] ∧
    (enterOp "a" scenarioATree "a" (freshCtx none)).1.conversation =
      some ⟨"a", [⟨1⟩, ⟨0⟩]⟩ ∧
    convMiddleware "a" scenarioATree (freshCtx (some ⟨"a", [⟨1⟩, ⟨0⟩]⟩)) =
      (⟨none, none, false, [(2, false)]⟩, Out.ok true) := by
  refine ⟨?_, ?_, ?_⟩ <;>
    simp [enterOp, convMiddleware, runScope, runScopeChain, runTracked,
      runHandler, freshCtx, getFrame, popTop, bumpTopPc, scenarioATree]

/-! ## C6 -/

/-- C6.  Calling `enter(identifier)` for this conversation while persisted
state already exists — which is in particular the case whenever a
conversation is already active for the current event, since activity is only
ever established together with the persisted state — throws before any
mutation: the operation is a rejected promise (`Out.err`, not a crash) and
the whole context, in particular the persisted state, is returned exactly as
it was. -/
theorem enter_rejected_when_state_exists (id : String) (es : List Mw)
    (s : Ctx) (c : ConvData) (hc : s.conversation = some c) :
    enterOp id es id s = (s, Out.err (Err.alreadyRunning c.id id)) := by
  simp [enterOp, hc]

/-- Witness for the C6 theorem at a concrete input. -/
theorem enter_rejected_when_state_exists_witness :
    enterOp "a" scenarioATree "a" ⟨some ⟨"a", [⟨1⟩, ⟨0⟩]⟩, none, true, []⟩ =
      (⟨some ⟨"a", [⟨1⟩, ⟨0⟩]⟩, none, true, []⟩,
        Out.err (Err.alreadyRunning "a" "a")) :=
  enter_rejected_when_state_exists "a" scenarioATree
    ⟨some ⟨"a", [⟨1⟩, ⟨0⟩]⟩, none, true, []⟩ ⟨"a", [⟨1⟩, ⟨0⟩]⟩ rfl

/-! ## C7 -/

/-- C7, counterexample.  Suspend on `twoEntryTree` (invocation 1 persists
stack `[{pc 1}, {pc 0}]`), then remove the first entry and deliver the
resuming event against `prunedTree`: no error is raised.  The replay pass
skips the only remaining entry (its counter 0 stays below the target pc 1),
falls off the end of the tree, pops the completed frames and silently
deletes the persisted state; no handler is invoked (the log is empty) and
the invocation reports ordinary completion. -/
theorem removed_entry_resumes_silently :
    (enterOp "a" twoEntryTree "a" (freshCtx none)).1.conversation =
      some ⟨"a", [⟨1⟩, ⟨0⟩]⟩ ∧
    convMiddleware "a" prunedTree (freshCtx (some ⟨"a", [⟨1⟩, ⟨0⟩]⟩)) =
      (⟨none, some ⟨0, 1⟩, false, []⟩, Out.ok true) := by
  constructor <;>
    simp [enterOp, convMiddleware, runScope, runScopeChain, runTracked,
      runHandler, freshCtx, getFrame, popTop, bumpTopPc, twoEntryTree,
      prunedTree]

/-- C7, amended.  The engine raises a fatal error during replay only when
the cursor's frame index has no frame in the stack (the `undefined` frame
access in `trackpc`); a target pc with no matching entry — the
removed-entry scenario — is not detected: the resuming invocation completes
without error and without invoking any handler, silently clearing the
persisted state instead of raising the structural-desynchronization
error. -/
theorem desync_error_only_for_missing_frame :
    (∀ (m : Mw) (s : Ctx) (conv : ConvData) (rp : ReplayPos),
      s.conversation = some conv → s.replay = some rp →
      getFrame conv.stack rp.frame = none →
      runTracked m s = (s, Out.err Err.typeError)) ∧
    (convMiddleware "a" prunedTree (freshCtx (some ⟨"a", [⟨1⟩, ⟨0⟩]⟩))).2 =
      Out.ok true ∧
    (convMiddleware "a" prunedTree
      (freshCtx (some ⟨"a", [⟨1⟩, ⟨0⟩]⟩))).1.log = [] := by
  refine ⟨?_, ?_, ?_⟩
  · intro m s conv rp hc hr hf
    simp [runTracked, hc, hr, hf]
  · simp [convMiddleware, runScope, runScopeChain, runTracked, runHandler,
      freshCtx, getFrame, popTop, bumpTopPc, prunedTree]
  · simp [convMiddleware, runScope, runScopeChain, runTracked, runHandler,
      freshCtx, getFrame, popTop, bumpTopPc, prunedTree]

/-- Witness for the amended C7 theorem: a cursor whose frame index (3) lies
outside the one-frame stack makes the tracker throw. -/
theorem desync_error_only_for_missing_frame_witness :
    runTracked (Mw.user 6 true) ⟨some ⟨"c", [⟨0⟩]⟩, some ⟨3, 0⟩, false, []⟩ =
      (⟨some ⟨"c", [⟨0⟩]⟩, some ⟨3, 0⟩, false, []⟩, Out.err Err.typeError) :=
  desync_error_only_for_missing_frame.1 (Mw.user 6 true)
    ⟨some ⟨"c", [⟨0⟩]⟩, some ⟨3, 0⟩, false, []⟩ ⟨"c", [⟨0⟩]⟩ ⟨3, 0⟩
    rfl rfl rfl

/-! ## C10 -/

/-- C10.  Calling `enter` with an identifier that does not match this
conversation, with no previously installed `enter` handler to delegate to
(`oldEnter?.()` on an absent handler is a no-op), resolves successfully and
changes nothing: no error, no persisted state created, no handler run. -/
theorem enter_unknown_identifier_is_noop (id : String) (es : List Mw)
    (identifier : String) (s : Ctx) (hne : identifier ≠ id) :
    enterOp id es identifier s = (s, Out.ok ()) := by
  simp [enterOp, hne]

/-- Witness for the C10 theorem at a concrete input. -/
theorem enter_unknown_identifier_is_noop_witness :
    enterOp "a" scenarioATree "nope" (freshCtx none) =
      (freshCtx none, Out.ok ()) :=
  enter_unknown_identifier_is_noop "a" scenarioATree "nope" (freshCtx none)
    (by decide)

/-! ## C8: build-time pc assignment of the id-indexed variant -/

namespace Indexed

/-- `ShallowConversation.register` of `unnamed/part_001` (lines 62-101): for
each middleware being registered it pushes one pc-setting middleware onto
the conversation's `index` array, assigning as pc the value `index.length`
at that moment (the "next instruction count").  The index is modelled by
the list of assigned pcs; registering a list of `n` middlewares performs
`n` such pushes in order. -/
def registerMany (index : List Nat) : Nat → List Nat
  | 0 => index
  | n + 1 => registerMany (index ++ [index.length]) n

/-- A sequence of builder calls (`use`, `filter`, `on`, ...) on one
conversation instance, the k-th call registering `counts[k]` middlewares.
The chained `ShallowConversation`s returned by the builder share the same
`index` array (it is passed through each constructor call), so the whole
scope accumulates one index; a fresh `Conversation` instance — a nested
scope — starts over from an empty index. -/
def buildIndex (counts : List Nat) : List Nat :=
  counts.foldl registerMany []

theorem registerMany_eq (index : List Nat) (n : Nat) :
    registerMany index n = index ++ List.range' index.length n := by
  induction n generalizing index with
  | zero => simp [registerMany]
  | succ k ih =>
    rw [registerMany, ih]
    simp [List.range'_succ]

theorem foldl_registerMany (counts : List Nat) (index : List Nat) :
    counts.foldl registerMany index =
      index ++ List.range' index.length counts.sum := by
  induction counts generalizing index with
  | nil => simp
  | cons c cs ih =>
    rw [List.foldl_cons, registerMany_eq, ih]
    simp [List.append_assoc]
    omega

end Indexed

/-- C8.  For every sequence of builder calls on one conversation instance,
the pcs assigned at build time are exactly `0, 1, 2, ...` in registration
order: each entry's pc equals the strictly increasing count of entries
registered so far within its own scope.  Nested scopes are distinct
`Conversation` instances carrying their own empty index, so their counting
restarts at zero — which is this same statement applied to the nested
instance's own sequence of calls. -/
theorem register_pcs_positional (counts : List Nat) :
    Indexed.buildIndex counts = List.range counts.sum ∧
    List.Pairwise (· < ·) (Indexed.buildIndex counts) ∧
    ∀ i : Fin counts.sum, (Indexed.buildIndex counts)[i.val]? = some i.val := by
  have h : Indexed.buildIndex counts = List.range counts.sum := by
    rw [Indexed.buildIndex, Indexed.foldl_registerMany]
    simp [List.range_eq_range']
  refine ⟨h, ?_, ?_⟩
  · rw [h]
    exact List.pairwise_lt_range _
  · intro i
    rw [h]
    exact List.getElem?_range i.isLt

/-! ## C9: navigation in the tree-position variant -/

namespace Nav

/-- Step/conversation identifiers of the tree-navigation variant
(`unnamed/part_002`): the `identifier` field holds a string (assigned via
`wait(id)` or `diveIn(id)`) or a number (assigned by default from
`index.size`); internal nodes may carry none at all. -/
inductive NId where
  | str (s : String)
  | num (n : Nat)
deriving DecidableEq, Repr

/-- A tree node (`Conversation` of `unnamed/part_002`) as navigation sees
it: its optional identifier, its parent, and whether middleware is
installed on it. -/
inductive Node where
  | mk (idf : Option NId) (parent : Option Node) (mwPresent : Bool)

/-- The node's `identifier` field. -/
def Node.idf : Node → Option NId
  | .mk i _ _ => i

/-- The node's `parent` reference. -/
def Node.parent : Node → Option Node
  | .mk _ p _ => p

/-- Whether `node.mw` is defined. -/
def Node.mwPresent : Node → Bool
  | .mk _ _ b => b

/-- Errors thrown by the navigation functions and the dispatcher. -/
inductive NavErr where
  | reachedTop
  | anonymous
  | notFound
  | outOfSync
  | noMiddleware
  | emptyConversation
deriving DecidableEq, Repr

/-- The `id` getter (part_002 lines 73-76): returns the identifier when it
is a string and throws "Anonymous conversations do not have identifiers"
otherwise — also for the numeric identifiers that `diveIn()` assigns by
default. -/
def idGet (node : Node) : Except NavErr String :=
  match node.idf with
  | some (.str s) => .ok s
  | _ => .error NavErr.anonymous

/-- The loop inside `diveOut` (part_002 lines 221-231): `depth` times,
first check that a parent exists (else throw "Reached top") and then step
up to it. -/
def diveOutLoop : Node → Nat → Except NavErr Node
  | node, 0 => .ok node
  | node, d + 1 =>
    match node.parent with
    | none => .error NavErr.reachedTop
    | some p => diveOutLoop p d

/-- The persisted slot `session.conversation = { active, step }` of the
tree-navigation variant. -/
structure NavSession where
  active : String
  step : NId
deriving DecidableEq, Repr

/-- `Conversation.changeStep` (part_002 lines 174-179): create the session
slot for this domain if absent, else overwrite its step in place. -/
def changeStep (dom : String) (sess : Option NavSession) (step : NId) :
    Option NavSession :=
  match sess with
  | none => some ⟨dom, step⟩
  | some sd => some ⟨sd.active, step⟩

/-- `diveOut` as installed by `installNavigation` (part_002 lines 220-231):
walk `depth` levels up the parent chain, then store the reached node's
string identifier (via the throwing `id` getter) as the intended next step.
A thrown error leaves the session untouched (the mutation happens only in
`changeStep`, after the walk and the getter both succeeded). -/
def diveOut (dom : String) (node : Node) (depth : Nat)
    (sess : Option NavSession) : Except NavErr (Option NavSession) :=
  match diveOutLoop node depth with
  | .error e => .error e
  | .ok anc =>
    match idGet anc with
    | .error e => .error e
    | .ok s => .ok (changeStep dom sess (.str s))

/-- `this.index.get(step)`: the tree-global identifier map. -/
def lookupStep (idx : List (NId × Node)) (k : NId) : Option Node :=
  match idx with
  | [] => none
  | (k2, v) :: rest => if k2 = k then some v else lookupStep rest k

/-- The step-selection logic of `Conversation.middleware` (part_002 lines
244-280): pass through when no session exists or another domain is active;
step 0 selects the domain head; otherwise the step is looked up in the
index, its identifier is checked against the step, and the target must
carry middleware. -/
def dispatchTarget (dom : String) (head : Option Node)
    (idx : List (NId × Node)) (sess : Option NavSession) :
    Except NavErr (Option Node) :=
  match sess with
  | none => .ok none
  | some sd =>
    if sd.active = dom then
      if sd.step = NId.num 0 then
        match head with
        | none => .error NavErr.emptyConversation
        | some t =>
          if t.mwPresent then .ok (some t) else .error NavErr.noMiddleware
      else
        match lookupStep idx sd.step with
        | none => .error NavErr.notFound
        | some t =>
          match idGet t with
          | .error e => .error e
          | .ok s2 =>
            if NId.str s2 = sd.step then
              if t.mwPresent then .ok (some t) else .error NavErr.noMiddleware
            else .error NavErr.outOfSync
    else .ok none

/-- Depth of a node: 1 for a root, one more per ancestor. -/
def nodeDepth : Node → Nat
  | .mk _ none _ => 1
  | .mk _ (some p) _ => nodeDepth p + 1

theorem diveOutLoop_ok_of_depth (n : Nat) (node : Node)
    (h : n + 1 ≤ nodeDepth node) : ∃ anc, diveOutLoop node n = .ok anc := by
  induction n generalizing node with
  | zero => exact ⟨node, rfl⟩
  | succ k ih =>
    match node with
    | .mk i none b => simp [nodeDepth] at h
    | .mk i (some p) b =>
      simp [nodeDepth] at h
      obtain ⟨anc, ha⟩ := ih p (by omega)
      exact ⟨anc, by simp [diveOutLoop, Node.parent, ha]⟩

theorem diveOutLoop_err_of_depth (n : Nat) (node : Node)
    (h : nodeDepth node < n + 1) :
    diveOutLoop node n = .error NavErr.reachedTop := by
  induction n generalizing node with
  | zero =>
    match node with
    | .mk i none b => simp [nodeDepth] at h
    | .mk i (some p) b => simp [nodeDepth] at h
  | succ k ih =>
    match node with
    | .mk i none b => simp [diveOutLoop, Node.parent]
    | .mk i (some p) b =>
      simp [nodeDepth] at h
      simp [diveOutLoop, Node.parent]
      exact ih p (by omega)

/-- The numeric-identifier tree: a leaf with a string identifier whose
parent got its identifier from a bare `diveIn()` call (a number). -/
def numRoot : Node := .mk (some (.num 3)) none true

/-- A depth-2 node above `numRoot`. -/
def numLeaf : Node := .mk (some (.str "leaf")) (some numRoot) true

end Nav

/-- C9, counterexample.  `numLeaf` sits at depth 2, so it has the one
ancestor that `diveOut(1)` needs; the claim says the call sets the persisted
step to that ancestor.  Instead the call is rejected: the ancestor's
identifier is the number 3 (the default a bare `diveIn()` assigns), and the
`id` getter used by `changeStep` throws "Anonymous conversations do not
have identifiers", leaving the session untouched. -/
theorem diveOut_numeric_ancestor_rejected :
    Nav.nodeDepth Nav.numLeaf = 2 ∧
    Nav.diveOut "d" Nav.numLeaf 1 (some ⟨"d", Nav.NId.str "leaf"⟩) =
      .error Nav.NavErr.anonymous := by
  constructor
  · simp [Nav.numLeaf, Nav.numRoot, Nav.nodeDepth]
  · simp [Nav.diveOut, Nav.diveOutLoop, Nav.numLeaf, Nav.numRoot,
      Nav.Node.parent, Nav.idGet, Nav.Node.idf]

/-- C9, amended.  `diveOut(n)` from a node at depth at least `n + 1` sets
the persisted step to the ancestor `n` levels up, provided that ancestor
carries a string identifier; the next invocation's dispatch then lands at
that ancestor (looked up in the index, identifier re-checked, middleware
present) and not at the suspended leaf.  If fewer than `n` ancestors exist
the call is rejected with the "Reached top" error and the session is left
unchanged; an ancestor without a string identifier is likewise rejected
(see the counterexample). -/
theorem diveOut_targets_ancestor :
    (∀ (dom : String) (node anc : Nav.Node) (n : Nat) (s : String)
        (sess : Option Nav.NavSession),
      n + 1 ≤ Nav.nodeDepth node →
      Nav.diveOutLoop node n = .ok anc →
      Nav.idGet anc = .ok s →
      Nav.diveOut dom node n sess =
        .ok (some ⟨(sess.map Nav.NavSession.active).getD dom, Nav.NId.str s⟩)) ∧
    (∀ (dom : String) (anc : Nav.Node) (s : String)
        (idx : List (Nav.NId × Nav.Node)) (head : Option Nav.Node),
      Nav.idGet anc = .ok s →
      Nav.lookupStep idx (Nav.NId.str s) = some anc →
      anc.mwPresent = true →
      Nav.dispatchTarget dom head idx (some ⟨dom, Nav.NId.str s⟩) =
        .ok (some anc)) ∧
    (∀ (dom : String) (node : Nav.Node) (n : Nat)
        (sess : Option Nav.NavSession),
      Nav.nodeDepth node < n + 1 →
      Nav.diveOut dom node n sess = .error Nav.NavErr.reachedTop) := by
  refine ⟨?_, ?_, ?_⟩
  · intro dom node anc n s sess _hd ha hs
    cases sess with
    | none => simp [Nav.diveOut, ha, hs, Nav.changeStep]
    | some sd => simp [Nav.diveOut, ha, hs, Nav.changeStep]
  · intro dom anc s idx head hs hl hmw
    simp [Nav.dispatchTarget, hl, hs, hmw]
  · intro dom node n sess hd
    simp [Nav.diveOut, Nav.diveOutLoop_err_of_depth n node hd]

/-- Witness for the amended C9 theorem on a concrete three-level tree with
string identifiers throughout: `diveOut(2)` from the depth-3 leaf stores
the root's identifier, and dispatch with that session selects the root. -/
theorem diveOut_targets_ancestor_witness :
    Nav.diveOut "top" (Nav.Node.mk (some (Nav.NId.str "leaf"))
        (some (Nav.Node.mk (some (Nav.NId.str "mid"))
          (some (Nav.Node.mk (some (Nav.NId.str "top")) none true)) true))
        true) 2
      (some ⟨"top", Nav.NId.str "leaf"⟩) =
      .ok (some ⟨"top", Nav.NId.str "top"⟩) ∧
    Nav.dispatchTarget "top" none
      [(Nav.NId.str "top", Nav.Node.mk (some (Nav.NId.str "top")) none true)]
      (some ⟨"top", Nav.NId.str "top"⟩) =
      .ok (some (Nav.Node.mk (some (Nav.NId.str "top")) none true)) :=
  ⟨diveOut_targets_ancestor.1 "top" _
      (Nav.Node.mk (some (Nav.NId.str "top")) none true) 2 "top"
      (some ⟨"top", Nav.NId.str "leaf"⟩) (by simp [Nav.nodeDepth]) rfl rfl,
    diveOut_targets_ancestor.2.1 "top"
      (Nav.Node.mk (some (Nav.NId.str "top")) none true) "top"
      [(Nav.NId.str "top", Nav.Node.mk (some (Nav.NId.str "top")) none true)]
      none rfl (by simp [Nav.lookupStep]) rfl⟩

end Grammy
